import Mathlib

/-!
Verification development for the Warehouse-Stock-Management ETL pipeline.

The Python sources under `etl_pipeline/` are shallowly embedded:
pandas DataFrames holding the canonical record sets become lists of
structured rows, numeric columns become `Rat`, nullable columns become
`Option`, and timestamps become rationals measured in days (so that
`pd.Timedelta(days=1)` arithmetic is plain subtraction).  Where the
column-level dynamics of pandas matter (merge suffixing of clashing
column names, `KeyError` on column access), a small column-faithful
dataframe model (`DF`) is used instead.
-/

namespace WarehouseETL

/-- Product / site identifiers (opaque identifiers in the source). -/
abbrev Ident := Nat

/-- Canonical inventory row as consumed by the transform engines
(`product_id`, `site_id`, `quantity`, `unit_cost`); `quantity` and
`unit_cost` are non-null after `_clean_inventory`'s coercion. -/
structure CInvRow where
  product_id : Option Ident
  site_id : Option Ident
  quantity : Rat
  unit_cost : Rat
deriving DecidableEq, Repr

/-- Canonical movement row as consumed by the transform engines. -/
structure CMovRow where
  product_id : Option Ident
  quantity : Rat
  movement_type : String
  tstamp : Option Rat
  from_site : Option Ident
  to_site : Option Ident
deriving DecidableEq, Repr

/-- ASCII-faithful lowercasing (`str.lower()`), defined character by
character so that it evaluates inside the kernel. -/
def strLower (s : String) : String := ⟨s.data.map Char.toLower⟩

/-- Distinct keys in first-occurrence order (the grouping keys of a
pandas `groupby`; key order is irrelevant to every claim proved here). -/
def dedupKeys (l : List Ident) : List Ident :=
  l.foldl (fun acc x => if acc.contains x then acc else acc ++ [x]) []

/-- `max` of a list of rationals, `none` on the empty list — the value of
a pandas `max()` aggregation, which is `NaN` on an all-null column. -/
def listMax : List Rat → Option Rat
  | [] => none
  | x :: xs =>
    match listMax xs with
    | none => some x
    | some m => some (max x m)

/-! ## FinancialMetrics (`transform/financial_metrics.py`) -/

/-- The distinct (non-null) product ids of an inventory record set, the
group keys of `df.groupby("product_id")` (null keys are excluded). -/
def finProducts (inv : List CInvRow) : List Ident :=
  dedupKeys (inv.filterMap (·.product_id))

/-- Summed inventory value (`quantity * unit_cost`) of one product:
`df.groupby("product_id").inventory_value.sum()`. -/
def productValue (inv : List CInvRow) (p : Ident) : Rat :=
  ((inv.filter (fun r => r.product_id = some p)).map
    (fun r => r.quantity * r.unit_cost)).sum

/-- Total inventory value: `abc["inventory_value"].sum()`. -/
def totalValue (inv : List CInvRow) : Rat :=
  ((finProducts inv).map (productValue inv)).sum

/-- Insert a product into a list kept in descending order of summed
inventory value. -/
def insertByVal (inv : List CInvRow) (p : Ident) : List Ident → List Ident
  | [] => [p]
  | q :: rest =>
    if productValue inv q ≤ productValue inv p then p :: q :: rest
    else q :: insertByVal inv p rest

/-- Products sorted by summed inventory value descending
(`sort_values("inventory_value", ascending=False)`; ties may appear in
any order there, and the claims checked here do not depend on the
tie-break). -/
def sortedProds (inv : List CInvRow) : List Ident :=
  (finProducts inv).foldr (insertByVal inv) []

/-- Running cumulative sums of `productValue` along a product list
(`abc["inventory_value"].cumsum()`), paired with each product. -/
def cumPairs (inv : List CInvRow) : List Ident → Rat → List (Ident × Rat)
  | [], _ => []
  | p :: rest, acc =>
    (p, acc + productValue inv p) :: cumPairs inv rest (acc + productValue inv p)

/-- The cumulative-share denominator: `total if total > 0 else 1`. -/
def abcDenom (inv : List CInvRow) : Rat :=
  if totalValue inv > 0 then totalValue inv else 1

/-- The `label` function of `FinancialMetrics.run`. -/
def abcLabel (x : Rat) : String :=
  if x ≤ 4/5 then "A" else if x ≤ 19/20 then "B" else "C"

/-- The `abc` table: product, cumulative share (`pct_cum`), class. -/
def abcTable (inv : List CInvRow) : List (Ident × Rat × String) :=
  (cumPairs inv (sortedProds inv) 0).map
    (fun pc => (pc.1, pc.2 / abcDenom inv, abcLabel (pc.2 / abcDenom inv)))

/-- Cumulative share of total value attributed to product `p` in the
descending-value order (`pct_cum` at `p`'s row of the `abc` table). -/
def pctShare (inv : List CInvRow) (p : Ident) : Rat :=
  match (abcTable inv).lookup p with
  | some pr => pr.1
  | none => 0

/-- Class looked up for a product by the final left merge
(`df.merge(abc[["product_id", "class"]], how="left", on="product_id")`). -/
def classOf (inv : List CInvRow) (p : Ident) : Option String :=
  ((abcTable inv).lookup p).map (·.2)

/-- Output row of `FinancialMetrics.run` (`class` column named
`abc_class`, a Lean keyword clash). -/
structure FinOutRow where
  product_id : Option Ident
  quantity : Rat
  unit_cost : Rat
  inventory_value : Rat
  annual_holding_cost : Rat
  abc_class : Option String
deriving DecidableEq, Repr

/-- `FinancialMetrics.run`: row-level values and holding cost, ABC class
merged back per product (rows with a null product id match no `abc` row
under a pandas left merge and keep a null class). -/
def financialMetricsRun (rate : Rat) (inv : List CInvRow) : List FinOutRow :=
  if inv.isEmpty then []
  else inv.map (fun r =>
    let v := r.quantity * r.unit_cost
    { product_id := r.product_id
      quantity := r.quantity
      unit_cost := r.unit_cost
      inventory_value := v
      annual_holding_cost := v * rate
      abc_class := match r.product_id with
        | some p => classOf inv p
        | none => none })

/-! ## InventoryMetrics (`transform/inventory_metrics.py`) -/

/-- Movement types counted as outbound for the COGS estimate. -/
def outboundTypes : List String := ["out", "sale", "dispatch", "issued"]

/-- Most recent known movement timestamp of a product:
`movements.groupby("product_id")[tcol].max()` (`none` when the product
has no movement row with a known timestamp, as pandas `max` skips
nulls and is `NaN` on an all-null group). -/
def lastMovement (mov : List CMovRow) (p : Ident) : Option Rat :=
  listMax ((mov.filter (fun m => m.product_id = some p)).filterMap (·.tstamp))

/-- Distinct product ids of the inventory set (group keys of the
engine's `groupby("product_id")`). -/
def invProducts (inv : List CInvRow) : List Ident :=
  dedupKeys (inv.filterMap (·.product_id))

/-- Output row of `InventoryMetrics.run`. -/
structure InvMetricRow where
  product_id : Ident
  quantity : Rat
  inventory_value : Rat
  turnover_ratio : Option Rat
  doh : Option Rat
  dead_stock : Bool
deriving DecidableEq, Repr

/-- `InventoryMetrics.run` over structured rows.  The function returns
`none` exactly when the source raises, on either of two error paths:
(1) after `df["cogs_quantity"] = 0`, a non-empty outbound selection is
merged with `df.merge(cogs_df, how="left", on="product_id")` whose
right side also carries a `cogs_quantity` column, so pandas suffixes
both sides to `cogs_quantity_x` / `cogs_quantity_y` and the following
`df["cogs_quantity"].fillna(0)` raises `KeyError`; (2) otherwise, when
the movement set is non-empty (canonical movement sets carry the
incremental timestamp column), the dead-stock step computes
`pd.Timestamp.utcnow() - pd.to_datetime(df["last_movement"])`, and
since `pd.Timestamp.utcnow()` is tz-aware while this pipeline's
timestamps are tz-naive (the merged `last_movement` column has naive
`datetime64[ns]` dtype even when all-NaT), pandas raises `TypeError:
Cannot subtract tz-naive and tz-aware datetime-like objects`.  Both
paths are followed line by line in the column-faithful model
`inventoryMetricsDF` below.  On the surviving path the movement set is
empty, hence `cogs_quantity` stays 0 and `dead_stock` stays false. -/
def inventoryMetricsRun (deadDays now : Rat) (inv : List CInvRow)
    (mov : List CMovRow) : Option (List InvMetricRow) :=
  if inv.isEmpty then some []
  else
    let outs := mov.filter (fun m => outboundTypes.contains (strLower m.movement_type))
    if ¬ outs.isEmpty then none
    else if ¬ mov.isEmpty then none
    else some ((invProducts inv).map (fun p =>
      let rowsP := inv.filter (fun r => r.product_id = some p)
      let qty := (rowsP.map (·.quantity)).sum
      let cost := (rowsP.map (·.unit_cost)).sum / rowsP.length
      let cogs : Rat := 0
      let turnover := if qty > 0 then some (cogs / qty) else none
      { product_id := p
        quantity := qty
        inventory_value := qty * cost
        turnover_ratio := turnover
        doh := match turnover with
          | some t => if t > 0 then some (365 / t) else none
          | none => none
        dead_stock := match lastMovement mov p with
          | some t => decide (now - t > deadDays)
          | none => false }))

/-! ## MovementAnalytics (`transform/movement_analytics.py`) -/

/-- `df.dropna(subset=[tcol, "product_id"])`: rows with a known
timestamp and a known product id. -/
def movFiltered (mov : List CMovRow) : List CMovRow :=
  mov.filter (fun m => m.tstamp.isSome ∧ m.product_id.isSome)

/-- `latest = df[tcol].max()` over the filtered movement rows. -/
def latestTs (mov : List CMovRow) : Option Rat :=
  listMax ((movFiltered mov).filterMap (·.tstamp))

/-- Whether a known timestamp lies in the most-recent 30-day window
(`df[tcol] >= latest - 30 days`). -/
def inWindow1 (latest : Rat) (t : Option Rat) : Bool :=
  match t with
  | some x => decide (x ≥ latest - 30)
  | none => false

/-- Whether a known timestamp lies in the prior 30–60-day window
(`latest - 60 days <= t < latest - 30 days`). -/
def inWindow2 (latest : Rat) (t : Option Rat) : Bool :=
  match t with
  | some x => decide (latest - 60 ≤ x ∧ x < latest - 30)
  | none => false

/-- Summed quantity of a product's movements in the most-recent 30-day
window, measured backward from the maximum observed timestamp; 0 when
no timestamp is known at all. -/
def w1Sum (mov : List CMovRow) (p : Ident) : Rat :=
  match latestTs mov with
  | none => 0
  | some latest =>
    ((mov.filter (fun m => m.product_id = some p ∧ inWindow1 latest m.tstamp)).map
      (·.quantity)).sum

/-- Summed quantity of a product's movements in the prior 30–60-day
window, measured backward from the maximum observed timestamp. -/
def w2Sum (mov : List CMovRow) (p : Ident) : Rat :=
  match latestTs mov with
  | none => 0
  | some latest =>
    ((mov.filter (fun m => m.product_id = some p ∧ inWindow2 latest m.tstamp)).map
      (·.quantity)).sum

/-- Output row of `MovementAnalytics.run`. -/
structure MovMetricRow where
  product_id : Ident
  avg_daily : Rat
  peak_daily : Option Rat
  w1_qty : Rat
  w2_qty : Rat
  trend_pct : Option Rat
deriving DecidableEq, Repr

/-- The output row of `MovementAnalytics.run` for one product: daily
aggregates (dates are `floor` of the day-valued timestamp, mirroring
`.dt.date`) and the two 30-day windows anchored at the maximum
observed timestamp. -/
def movMetricOf (mov : List CMovRow) (p : Ident) : MovMetricRow :=
  let df := movFiltered mov
  let rowsP := df.filter (fun m => m.product_id = some p)
  let dates := (rowsP.filterMap (fun m => m.tstamp.map Rat.floor)).foldl
    (fun acc d => if acc.contains d then acc else acc ++ [d]) []
  let dailySums := dates.map (fun d =>
    ((rowsP.filter (fun m => m.tstamp.map Rat.floor = some d)).map
      (·.quantity)).sum)
  let latest := (listMax (df.filterMap (·.tstamp))).getD 0
  let w1 := ((df.filter (fun m => m.product_id = some p ∧ inWindow1 latest m.tstamp)).map
    (·.quantity)).sum
  let w2 := ((df.filter (fun m => m.product_id = some p ∧ inWindow2 latest m.tstamp)).map
    (·.quantity)).sum
  { product_id := p
    avg_daily := dailySums.sum / dates.length
    peak_daily := listMax dailySums
    w1_qty := w1
    w2_qty := w2
    trend_pct := if w2 > 0 then some ((w1 - w2) / w2) else none }

/-- `MovementAnalytics.run` over structured rows: drop rows lacking the
timestamp or product id, then aggregate per product. -/
def movementAnalyticsRun (mov : List CMovRow) : List MovMetricRow :=
  if mov.isEmpty then []
  else (dedupKeys ((movFiltered mov).filterMap (·.product_id))).map (movMetricOf mov)

/-! ## WarehousePerformance (`transform/warehouse_performance.py`)

The structured model covers the path where the inventory carries a
`site_id` column (the claim's precondition); the no-site branch of the
source collapses to one synthetic "ALL" row and is not consulted by any
claim.  Column-name dynamics of the final merge are checked separately
with the column-faithful `warehousePerformanceDF` model. -/

/-- Distinct (non-null) site ids: group keys of `groupby("site_id")`. -/
def whSites (inv : List CInvRow) : List Ident :=
  dedupKeys (inv.filterMap (·.site_id))

/-- Summed quantity per site. -/
def siteQty (inv : List CInvRow) (s : Ident) : Rat :=
  ((inv.filter (fun r => r.site_id = some s)).map (·.quantity)).sum

/-- Distinct (src, dst) transfer pairs: group keys of
`moves.groupby(["from_site", "to_site"])` after
`dropna(subset=["from_site", "to_site", "quantity"])`. -/
def transferPairs (mov : List CMovRow) : List (Ident × Ident) :=
  (mov.filterMap (fun m =>
    match m.from_site, m.to_site with
    | some a, some b => some (a, b)
    | _, _ => none)).foldl
    (fun acc pr => if acc.contains pr then acc else acc ++ [pr]) []

/-- Summed transfer quantity for one (src, dst) pair. -/
def transferQty (mov : List CMovRow) (a b : Ident) : Rat :=
  ((mov.filter (fun m => m.from_site = some a ∧ m.to_site = some b)).map
    (·.quantity)).sum

/-- Output row of `WarehousePerformance.run` when the transfer table is
joined on.  The clashing `quantity` columns of the pandas left merge are
suffixed: the per-site sum becomes `quantity_x`, the transfer sum
`quantity_y` (the source never renames the latter to
`transfer_quantity`). -/
structure WhOutRow where
  site_id : Ident
  quantity_x : Rat
  capacity : Rat
  utilization : Rat
  src : Option Ident
  dst : Option Ident
  quantity_y : Option Rat
deriving DecidableEq, Repr

/-- Result of `WarehousePerformance.run`: `plain` when the transfer
table is empty (the utilization table alone, without transfer columns),
`joined` after the left merge with the transfer table. -/
inductive WhResult where
  | plain (rows : List (Ident × Rat × Rat × Rat))
  | joined (rows : List WhOutRow)
deriving DecidableEq, Repr

/-- One row of the per-site utilization table: site, summed quantity,
configured capacity, `utilization = quantity / capacity`. -/
def whUtilRow (cap : Rat) (inv : List CInvRow) (s : Ident) :
    Ident × Rat × Rat × Rat :=
  (s, siteQty inv s, cap, siteQty inv s / cap)

/-- The output rows contributed by one utilization row under the left
merge with the transfer table: one row per matching (src, dst) pair,
or a single row with null transfer fields when no pair matches. -/
def whJoinRows (mov : List CMovRow) (u : Ident × Rat × Rat × Rat) :
    List WhOutRow :=
  let hits := (transferPairs mov).filter (fun pr => pr.1 = u.1)
  if hits.isEmpty then
    [{ site_id := u.1, quantity_x := u.2.1, capacity := u.2.2.1,
       utilization := u.2.2.2, src := none, dst := none, quantity_y := none }]
  else hits.map (fun pr =>
    { site_id := u.1, quantity_x := u.2.1, capacity := u.2.2.1,
      utilization := u.2.2.2, src := some pr.1, dst := some pr.2,
      quantity_y := some (transferQty mov pr.1 pr.2) })

/-- `WarehousePerformance.run` over structured rows (site column
present): per-site utilization, then a left merge of the per-(src, dst)
transfer sums on `site_id = src` — a site matching several pairs widens
to several rows, a site matching none keeps null transfer fields. -/
def warehousePerformanceRun (cap : Rat) (inv : List CInvRow)
    (mov : List CMovRow) : WhResult :=
  if inv.isEmpty then .plain []
  else
    let util := (whSites inv).map (whUtilRow cap inv)
    if (transferPairs mov).isEmpty then .plain util
    else .joined (util.flatMap (whJoinRows mov))

/-! ## Extractor cleaning (`extract/data_extractor.py`)

Raw record sets are modelled with explicit column-presence flags, since
`_clean_inventory` / `_clean_movements` branch on `c in df.columns`.
A raw cell value is modelled *after* value coercion: `none` stands for
a missing, null or unparsable value (which `pd.to_numeric` /
`pd.to_datetime` with `errors="coerce"` turn into null). -/

/-- Raw movement row. -/
structure RawMovRow where
  product_id : Option Ident
  quantity : Option Rat
  movement_type : String
  tstamp : Option Rat
deriving DecidableEq, Repr

/-- Raw movement record set with column-presence flags. -/
structure RawMovData where
  hasProductCol : Bool
  hasQuantityCol : Bool
  hasTimeCol : Bool
  rows : List RawMovRow
deriving DecidableEq, Repr

/-- The empty movement record set (`pd.DataFrame()`). -/
def emptyMovData : RawMovData := ⟨false, false, false, []⟩

/-- `DataExtractor._clean_movements`: coerce the incremental timestamp
column when present (identity here, values are modelled post-coercion),
drop rows with a null `product_id` when that column is present, and
coerce `quantity` to numeric with null defaulting to 0 when that column
is present.  Rows whose timestamp is null are NOT dropped. -/
def cleanMovements (d : RawMovData) : RawMovData :=
  if d.rows.isEmpty then emptyMovData
  else
    let rows1 := if d.hasProductCol then d.rows.filter (fun r => r.product_id.isSome)
      else d.rows
    let rows2 := if d.hasQuantityCol then
        rows1.map (fun r => { r with quantity := some (r.quantity.getD 0) })
      else rows1
    { d with rows := rows2 }

/-- Raw inventory row. -/
structure RawInvRow where
  product_id : Option Ident
  site_id : Option Ident
  quantity : Option Rat
  unit_cost : Option Rat
  last_updated : Option Rat
deriving DecidableEq, Repr

/-- Raw inventory record set with column-presence flags. -/
structure RawInvData where
  hasProductCol : Bool
  hasSiteCol : Bool
  hasQuantityCol : Bool
  hasUpdatedCol : Bool
  hasCostCol : Bool
  rows : List RawInvRow
deriving DecidableEq, Repr

/-- The empty inventory record set (`pd.DataFrame()`). -/
def emptyInvData : RawInvData := ⟨false, false, false, false, false, []⟩

/-- The missing-required-column warning list logged by
`_clean_inventory` (`[c for c in required if c not in df.columns]`). -/
def missingInventoryColumns (d : RawInvData) : List String :=
  (if d.hasProductCol then [] else ["product_id"]) ++
  (if d.hasSiteCol then [] else ["site_id"]) ++
  (if d.hasQuantityCol then [] else ["quantity"]) ++
  (if d.hasUpdatedCol then [] else ["last_updated"]) ++
  (if d.hasCostCol then [] else ["unit_cost"])

/-- `DataExtractor._clean_inventory`: log missing required columns, then
coerce `quantity` and `unit_cost` to numeric (null defaulting to 0) and
`last_updated` to a timestamp, each only when the column is present.
No missing column is synthesized: the column-presence flags pass
through unchanged, and no row is dropped. -/
def cleanInventory (d : RawInvData) : RawInvData :=
  if d.rows.isEmpty then emptyInvData
  else
    let rows1 := if d.hasQuantityCol then
        d.rows.map (fun r => { r with quantity := some (r.quantity.getD 0) })
      else d.rows
    let rows2 := if d.hasCostCol then
        rows1.map (fun r => { r with unit_cost := some (r.unit_cost.getD 0) })
      else rows1
    { d with rows := rows2 }

/-! ## Extractor orchestration (`DataExtractor.extract`) -/

/-- The persisted checkpoint state (`.etl_state.json`): per-source
watermarks, absent before a first successful pass. -/
structure EtlState where
  postgres_last : Option Rat
  csv_last : Option Rat
deriving DecidableEq, Repr

/-- Effective queryable-source watermark: the stored value, or — cold
start — now minus the configured lookback window (default 7 days). -/
def effectivePgWatermark (stored : Option Rat) (lookbackCfg : Option Rat)
    (now : Rat) : Rat :=
  match stored with
  | some w => w
  | none => now - lookbackCfg.getD 7

/-- The queryable source's filtered read:
`WHERE incremental_column >= watermark` (a null timestamp satisfies no
SQL comparison). -/
def queryIncremental (table : List RawInvRow) (wm : Rat) : List RawInvRow :=
  table.filter (fun r =>
    match r.last_updated with
    | some t => decide (t ≥ wm)
    | none => false)

/-- The flat-file source's timestamp filter: rows `>= watermark` when a
prior watermark exists, the entire file otherwise (cold start). -/
def csvFilterRows (stored : Option Rat) (rows : List RawMovRow) : List RawMovRow :=
  match stored with
  | some w => rows.filter (fun r =>
      match r.tstamp with
      | some t => decide (t ≥ w)
      | none => false)
  | none => rows

/-- An inventory record set as produced by a successful queryable read:
every required column is present. -/
def invDataOf (rows : List RawInvRow) : RawInvData :=
  ⟨true, true, true, true, true, rows⟩

/-- Result of one `DataExtractor.extract` run: the checkpoint state
passed to `_save_state`, and the two cleaned canonical record sets. -/
structure ExtractResult where
  savedState : EtlState
  inventory : RawInvData
  movements : RawMovData
deriving DecidableEq, Repr

/-- `DataExtractor.extract`.  `pgTable` is the queryable source
(`.error` = connection/query failure, caught and degraded to an empty
set); `csvFile` is the flat file (`none` = path missing, `some .error`
= parse failure).  When the queryable source is enabled its watermark is
set to `now` after the read attempt, unconditionally on success; the
flat-file watermark is set to `now` only when the path exists.  A
disabled source leaves its watermark untouched. -/
def extract (pgEnabled csvEnabled : Bool) (lookbackCfg : Option Rat)
    (pgTable : Except Unit (List RawInvRow))
    (csvFile : Option (Except Unit RawMovData))
    (now : Rat) (st0 : EtlState) : ExtractResult :=
  let pgPart : RawInvData × EtlState :=
    if pgEnabled then
      let wm := effectivePgWatermark st0.postgres_last lookbackCfg now
      let dat := match pgTable with
        | .ok table => invDataOf (queryIncremental table wm)
        | .error _ => emptyInvData
      (dat, { st0 with postgres_last := some now })
    else (emptyInvData, st0)
  let st1 := pgPart.2
  let csvPart : RawMovData × EtlState :=
    if csvEnabled then
      match csvFile with
      | none => (emptyMovData, st1)
      | some (.error _) => (emptyMovData, { st1 with csv_last := some now })
      | some (.ok dat) =>
        ({ dat with rows := csvFilterRows st1.csv_last dat.rows },
         { st1 with csv_last := some now })
    else (emptyMovData, st1)
  { savedState := csvPart.2
    inventory := cleanInventory pgPart.1
    movements := cleanMovements csvPart.1 }

/-! ## A column-faithful dataframe model

Pandas semantics that the structured models above cannot express are
captured here: a dataframe is a column-name list plus rows of
name/value cells, column access on an absent name is a `KeyError`, and
a merge suffixes clashing non-key column names with `_x` / `_y`. -/

/-- A dataframe cell value (`NaN`/`NaT`/`None` all collapse to `null`). -/
inductive Val where
  | num (x : Rat)
  | str (s : String)
  | boolv (b : Bool)
  | null
deriving DecidableEq, Repr

/-- A dataframe row: cells keyed by column name. -/
abbrev DfRow := List (String × Val)

/-- Cell of a row at a column (null when the cell is absent). -/
def rowGet (r : DfRow) (c : String) : Val :=
  (r.lookup c).getD Val.null

/-- A dataframe: ordered column names and rows. -/
structure DF where
  cols : List String
  rows : List DfRow
deriving DecidableEq, Repr

/-- `df[c]`: the column's cells, or a `KeyError` when absent. -/
def getCol (df : DF) (c : String) : Except String (List Val) :=
  if df.cols.contains c then .ok (df.rows.map (fun r => rowGet r c))
  else .error ("KeyError: " ++ c)

/-- Replace (or append) one cell of a row. -/
def setField (r : DfRow) (c : String) (v : Val) : DfRow :=
  if (r.lookup c).isSome then
    r.map (fun kv => if kv.1 = c then (c, v) else kv)
  else r ++ [(c, v)]

/-- `df[c] = vals`: assign a column, appending it when new. -/
def setCol (df : DF) (c : String) (vals : List Val) : DF :=
  { cols := if df.cols.contains c then df.cols else df.cols ++ [c]
    rows := List.zipWith (fun r v => setField r c v) df.rows vals }

/-- `df[c] = scalar`. -/
def setConst (df : DF) (c : String) (v : Val) : DF :=
  setCol df c (df.rows.map (fun _ => v))

/-- `df.columns = [c.lower() for c in df.columns]`. -/
def lowerCols (df : DF) : DF :=
  { cols := df.cols.map strLower
    rows := df.rows.map (fun r => r.map (fun kv => (strLower kv.1, kv.2))) }

/-- Rename one column. -/
def renameCol (df : DF) (o n : String) : DF :=
  { cols := df.cols.map (fun c => if c = o then n else c)
    rows := df.rows.map (fun r => r.map (fun kv => if kv.1 = o then (n, kv.2) else kv)) }

/-- Numeric view of a cell (`NaN` and non-numerics excluded, as by a
pandas numeric aggregation). -/
def toNum (v : Val) : Option Rat :=
  match v with
  | .num x => some x
  | _ => none

/-- `fillna(0)` on one cell. -/
def fillnaZero (v : Val) : Val :=
  match v with
  | .null => .num 0
  | v => v

/-- `sum()` aggregation: nulls skipped, 0 on empty. -/
def sumAgg (vs : List Val) : Val := .num ((vs.filterMap toNum).sum)

/-- `mean()` aggregation: nulls skipped, null on all-null. -/
def meanAgg (vs : List Val) : Val :=
  let ns := vs.filterMap toNum
  if ns.isEmpty then .null else .num (ns.sum / ns.length)

/-- `max()` aggregation: nulls skipped, null on all-null. -/
def maxAgg (vs : List Val) : Val :=
  match listMax (vs.filterMap toNum) with
  | some m => .num m
  | none => .null

/-- Elementwise product; null-propagating. -/
def vmul (a b : Val) : Val :=
  match a, b with
  | .num x, .num y => .num (x * y)
  | _, _ => .null

/-- Elementwise quotient; null-propagating (division by zero never
occurs on the selected branches of the runs modelled here). -/
def vdiv (a b : Val) : Val :=
  match a, b with
  | .num x, .num y => if y = 0 then .null else .num (x / y)
  | _, _ => .null

/-- `v > 0` on a cell (`NaN > 0` is false in pandas). -/
def numGTzero (v : Val) : Bool :=
  match v with
  | .num x => decide (x > 0)
  | _ => false

/-- `.astype(str).str.lower()` on one cell. -/
def valLowerStr (v : Val) : String :=
  match v with
  | .str s => strLower s
  | .null => "nan"
  | _ => ""

/-- `df.groupby(key).agg(...)`: one output row per distinct non-null
key value, one output column per aggregation (source column, output
column, aggregation function); `KeyError` on an absent column. -/
def groupByAgg (df : DF) (key : String)
    (aggs : List (String × String × (List Val → Val))) : Except String DF :=
  if ¬ df.cols.contains key then .error ("KeyError: " ++ key)
  else if aggs.any (fun a => ¬ df.cols.contains a.1) then .error "KeyError: aggregated column"
  else
    let keyVals := (df.rows.map (fun r => rowGet r key)).foldl
      (fun acc v => if v = Val.null ∨ acc.contains v then acc else acc ++ [v]) []
    .ok { cols := key :: aggs.map (·.2.1)
          rows := keyVals.map (fun kv =>
            let grp := df.rows.filter (fun r => rowGet r key = kv)
            (key, kv) :: aggs.map (fun a => (a.2.1, a.2.2 (grp.map (fun r => rowGet r a.1))))) }

/-- Two-key variant of `groupByAgg` (rows with a null in either key are
excluded), aggregating one source column into one output column. -/
def groupByAgg2 (df : DF) (k1 k2 src dst : String) (f : List Val → Val) :
    Except String DF :=
  if ¬ (df.cols.contains k1 ∧ df.cols.contains k2 ∧ df.cols.contains src) then
    .error "KeyError: grouped column"
  else
    let keyVals := (df.rows.map (fun r => (rowGet r k1, rowGet r k2))).foldl
      (fun acc v =>
        if v.1 = Val.null ∨ v.2 = Val.null ∨ acc.contains v then acc else acc ++ [v]) []
    .ok { cols := [k1, k2, dst]
          rows := keyVals.map (fun kv =>
            let grp := df.rows.filter (fun r => rowGet r k1 = kv.1 ∧ rowGet r k2 = kv.2)
            [(k1, kv.1), (k2, kv.2), (dst, f (grp.map (fun r => rowGet r src)))]) }

/-- `left.merge(right, how="left", on=key)`: non-key columns present on
both sides are suffixed `_x` (left) and `_y` (right); a left row with
no key match keeps null right cells; one output row per match
otherwise.  Null keys match nothing. -/
def mergeOn (l r : DF) (key : String) : DF :=
  let overlap := l.cols.filter (fun c => c ≠ key ∧ r.cols.contains c)
  let rKeep := r.cols.filter (fun c => c ≠ key)
  let lname := fun (c : String) => if overlap.contains c then c ++ "_x" else c
  let rname := fun (c : String) => if l.cols.contains c then c ++ "_y" else c
  { cols := l.cols.map lname ++ rKeep.map rname
    rows := l.rows.flatMap (fun lr =>
      let kv := rowGet lr key
      let ms := if kv = Val.null then [] else r.rows.filter (fun rr => rowGet rr key = kv)
      let lrRen := lr.map (fun p => (lname p.1, p.2))
      if ms.isEmpty then [lrRen ++ rKeep.map (fun c => (rname c, Val.null))]
      else ms.map (fun rr => lrRen ++ rKeep.map (fun c => (rname c, rowGet rr c)))) }

/-- `left.merge(right, how="left", left_on=lk, right_on=rk)`: both key
columns are retained, every column name present on both sides is
suffixed `_x` / `_y`. -/
def mergeLR (l r : DF) (lk rk : String) : DF :=
  let overlap := l.cols.filter (fun c => r.cols.contains c)
  let lname := fun (c : String) => if overlap.contains c then c ++ "_x" else c
  let rname := fun (c : String) => if l.cols.contains c then c ++ "_y" else c
  { cols := l.cols.map lname ++ r.cols.map rname
    rows := l.rows.flatMap (fun lr =>
      let kv := rowGet lr lk
      let ms := if kv = Val.null then [] else r.rows.filter (fun rr => rowGet rr rk = kv)
      let lrRen := lr.map (fun p => (lname p.1, p.2))
      if ms.isEmpty then [lrRen ++ r.cols.map (fun c => (rname c, Val.null))]
      else ms.map (fun rr => lrRen ++ r.cols.map (fun c => (rname c, rowGet rr c)))) }

/-- `df[[c for c in cs if c in df.columns]]`. -/
def selectCols (df : DF) (cs : List String) : DF :=
  let kept := cs.filter (fun c => df.cols.contains c)
  { cols := kept
    rows := df.rows.map (fun r => kept.map (fun c => (c, rowGet r c))) }

/-- `InventoryMetrics.run` over the column-faithful model, following
the source line by line; `tcol` is the configured incremental column
name of the flat-file source. -/
def inventoryMetricsDF (tcol : String) (deadDays now : Rat) (inv mov : DF) :
    Except String DF := do
  if inv.rows.isEmpty then return ⟨[], []⟩
  let df0 := lowerCols inv
  let df1 ← groupByAgg df0 "product_id"
    [("quantity", "quantity", sumAgg), ("unit_cost", "unit_cost", meanAgg)]
  let q ← getCol df1 "quantity"
  let uc ← getCol df1 "unit_cost"
  let df2 := setCol df1 "inventory_value"
    (List.zipWith (fun a b => vmul a (fillnaZero b)) q uc)
  let df3 := setConst df2 "cogs_quantity" (Val.num 0)
  let df4 ← do
    if ¬ mov.rows.isEmpty ∧ mov.cols.contains "movement_type" then
      let outs : DF := ⟨mov.cols, mov.rows.filter (fun r =>
        outboundTypes.contains (valLowerStr (rowGet r "movement_type")))⟩
      if ¬ outs.rows.isEmpty then
        let cogs ← groupByAgg outs "product_id" [("quantity", "cogs_quantity", sumAgg)]
        let m := mergeOn df3 cogs "product_id"
        let cq ← getCol m "cogs_quantity"
        pure (setCol m "cogs_quantity" (cq.map fillnaZero))
      else
        pure df3
    else
      pure (setConst df3 "cogs_quantity" (Val.num 0))
  let q4 ← getCol df4 "quantity"
  let cq4 ← getCol df4 "cogs_quantity"
  let df5 := setCol df4 "turnover_ratio"
    (List.zipWith (fun qv cv => if numGTzero qv then vdiv cv qv else Val.null) q4 cq4)
  let tr ← getCol df5 "turnover_ratio"
  let df6 := setCol df5 "doh"
    (tr.map (fun v => if numGTzero v then vdiv (Val.num 365) v else Val.null))
  let df7 := setConst df6 "dead_stock" (Val.boolv false)
  let df8 ← do
    if ¬ mov.rows.isEmpty then
      if mov.cols.contains tcol then
        let lastm ← groupByAgg mov "product_id" [(tcol, "last_movement", maxAgg)]
        let m := mergeOn df7 lastm "product_id"
        let _ ← getCol m "last_movement"
        throw "TypeError: Cannot subtract tz-naive and tz-aware datetime-like objects"
      else
        pure df7
    else
      pure df7
  return selectCols df8
    ["product_id", "quantity", "inventory_value", "turnover_ratio", "doh", "dead_stock"]

/-- `WarehousePerformance.run` over the column-faithful model,
following the source line by line. -/
def warehousePerformanceDF (cap : Rat) (inv mov : DF) : Except String DF := do
  if inv.rows.isEmpty then return ⟨[], []⟩
  let inv1 := lowerCols inv
  if ¬ inv1.cols.contains "site_id" then
    let total := if inv1.cols.contains "quantity" then
        sumAgg (inv1.rows.map (fun r => rowGet r "quantity"))
      else Val.num 0
    let base : DF := ⟨["site_id", "quantity", "capacity"],
      [[("site_id", Val.str "ALL"), ("quantity", total), ("capacity", Val.num cap)]]⟩
    let q ← getCol base "quantity"
    let c ← getCol base "capacity"
    return setCol base "utilization" (List.zipWith vdiv q c)
  else
    let agg ← groupByAgg inv1 "site_id" [("quantity", "quantity", sumAgg)]
    let agg1 := if agg.cols.contains "capacity" then agg
      else setConst agg "capacity" (Val.num cap)
    let q ← getCol agg1 "quantity"
    let c ← getCol agg1 "capacity"
    let agg2 := setCol agg1 "utilization" (List.zipWith vdiv q c)
    if ¬ mov.rows.isEmpty ∧ mov.cols.contains "from_site" ∧ mov.cols.contains "to_site" then
      if ¬ mov.cols.contains "quantity" then
        throw "KeyError: quantity"
      else
        let moves : DF := ⟨mov.cols, mov.rows.filter (fun r =>
          rowGet r "from_site" ≠ Val.null ∧ rowGet r "to_site" ≠ Val.null ∧
          rowGet r "quantity" ≠ Val.null)⟩
        let tr0 ← groupByAgg2 moves "from_site" "to_site" "quantity" "quantity" sumAgg
        let transfers := renameCol (renameCol tr0 "from_site" "src") "to_site" "dst"
        if ¬ transfers.rows.isEmpty then
          return mergeLR agg2 transfers "site_id" "src"
        else
          return agg2
    else
      return agg2

/-! ## Helper lemmas -/

theorem mem_dedupKeys_aux (l : List Ident) (acc : List Ident) (x : Ident) :
    x ∈ l.foldl (fun acc x => if acc.contains x then acc else acc ++ [x]) acc ↔
      x ∈ acc ∨ x ∈ l := by
  induction l generalizing acc with
  | nil => simp
  | cons a t ih =>
    simp only [List.foldl_cons]
    by_cases h : acc.contains a
    · rw [if_pos h, ih]
      constructor
      · rintro (hx | hx)
        · exact Or.inl hx
        · exact Or.inr (List.mem_cons_of_mem a hx)
      · rintro (hx | hx)
        · exact Or.inl hx
        · rcases List.mem_cons.mp hx with rfl | hx
          · exact Or.inl (by simpa using h)
          · exact Or.inr hx
    · rw [if_neg h, ih]
      simp only [List.mem_append, List.mem_singleton, List.mem_cons]
      tauto

theorem mem_dedupKeys (l : List Ident) (x : Ident) :
    x ∈ dedupKeys l ↔ x ∈ l := by
  unfold dedupKeys
  rw [mem_dedupKeys_aux]
  simp

theorem listMax_isSome (l : List Rat) : (listMax l).isSome ↔ l ≠ [] := by
  cases l with
  | nil => simp [listMax]
  | cons x xs =>
    simp only [listMax, ne_eq, reduceCtorEq, not_false_eq_true, iff_true]
    cases listMax xs <;> simp

theorem filter_filter_of_imp {α : Type} (l : List α) (p q : α → Bool)
    (h : ∀ a, p a = true → q a = true) :
    (l.filter q).filter p = l.filter p := by
  induction l with
  | nil => rfl
  | cons a t ih =>
    by_cases hp : p a
    · have hq := h a hp
      simp [List.filter_cons, hp, hq, ih]
    · by_cases hq : q a <;>
        simp [List.filter_cons, hq, hp, ih]

theorem mem_insertByVal (inv : List CInvRow) (p x : Ident) (l : List Ident) :
    x ∈ insertByVal inv p l ↔ x = p ∨ x ∈ l := by
  induction l with
  | nil => simp [insertByVal]
  | cons q rest ih =>
    unfold insertByVal
    by_cases h : productValue inv q ≤ productValue inv p
    · simp [h, List.mem_cons]
    · simp only [if_neg h, List.mem_cons, ih]
      tauto

theorem mem_sortedProds (inv : List CInvRow) (x : Ident) :
    x ∈ sortedProds inv ↔ x ∈ finProducts inv := by
  unfold sortedProds
  induction finProducts inv with
  | nil => simp
  | cons a t ih =>
    simp only [List.foldr_cons, mem_insertByVal, ih, List.mem_cons]

theorem pairwise_insertByVal (inv : List CInvRow) (p : Ident) (l : List Ident)
    (h : l.Pairwise (fun a b => productValue inv b ≤ productValue inv a)) :
    (insertByVal inv p l).Pairwise (fun a b => productValue inv b ≤ productValue inv a) := by
  induction l with
  | nil => simp [insertByVal]
  | cons q rest ih =>
    unfold insertByVal
    rcases List.pairwise_cons.mp h with ⟨hq, hrest⟩
    by_cases hc : productValue inv q ≤ productValue inv p
    · rw [if_pos hc]
      refine List.pairwise_cons.mpr ⟨?_, h⟩
      intro b hb
      rcases List.mem_cons.mp hb with rfl | hb
      · exact hc
      · exact le_trans (hq b hb) hc
    · rw [if_neg hc]
      refine List.pairwise_cons.mpr ⟨?_, ih hrest⟩
      intro b hb
      rcases (mem_insertByVal inv p b rest).mp hb with rfl | hb
      · exact le_of_lt (lt_of_not_le hc)
      · exact hq b hb

theorem pairwise_sortedProds (inv : List CInvRow) :
    (sortedProds inv).Pairwise (fun a b => productValue inv b ≤ productValue inv a) := by
  unfold sortedProds
  induction finProducts inv with
  | nil => simp
  | cons a t ih => exact pairwise_insertByVal inv a _ ih

theorem cumPairs_keys (inv : List CInvRow) (l : List Ident) (acc : Rat) :
    (cumPairs inv l acc).map Prod.fst = l := by
  induction l generalizing acc with
  | nil => rfl
  | cons p rest ih => simp [cumPairs, ih]

theorem lookup_isSome_of_mem_keys {β : Type} (l : List (Ident × β)) (p : Ident)
    (h : p ∈ l.map Prod.fst) : (l.lookup p).isSome := by
  induction l with
  | nil => simp at h
  | cons a t ih =>
    simp only [List.map_cons, List.mem_cons] at h
    unfold List.lookup
    by_cases he : p == a.1
    · simp [he]
    · simp only [he, Bool.false_eq_true, if_false]
      rcases h with h | h
      · exact absurd (beq_iff_eq.mpr h) (by simpa using he)
      · exact ih h

theorem mem_of_lookup_eq_some {β : Type} (l : List (Ident × β)) (p : Ident) (b : β)
    (h : l.lookup p = some b) : (p, b) ∈ l := by
  induction l with
  | nil => simp [List.lookup] at h
  | cons a t ih =>
    unfold List.lookup at h
    by_cases he : p == a.1
    · simp only [he, if_true, Option.some.injEq] at h
      have : p = a.1 := beq_iff_eq.mp he
      subst this
      subst h
      exact List.mem_cons_self _ _
    · simp only [he, Bool.false_eq_true, if_false] at h
      exact List.mem_cons_of_mem a (ih h)

theorem abcTable_lookup (inv : List CInvRow) (p : Ident)
    (hp : p ∈ finProducts inv) :
    ∃ c : Rat,
      (abcTable inv).lookup p = some (c / abcDenom inv, abcLabel (c / abcDenom inv))
        ∧ (p, c) ∈ cumPairs inv (sortedProds inv) 0 := by
  have hkeys : (abcTable inv).map Prod.fst = sortedProds inv := by
    unfold abcTable
    rw [List.map_map]
    exact cumPairs_keys inv (sortedProds inv) 0
  have hmemk : p ∈ (abcTable inv).map Prod.fst := by
    rw [hkeys]
    exact (mem_sortedProds inv p).mpr hp
  obtain ⟨v, hv⟩ := Option.isSome_iff_exists.mp (lookup_isSome_of_mem_keys _ p hmemk)
  have hpv : (p, v) ∈ abcTable inv := mem_of_lookup_eq_some _ p v hv
  unfold abcTable at hpv
  rcases List.mem_map.mp hpv with ⟨pc, hpc, heq⟩
  have h1 : pc.1 = p := congrArg Prod.fst heq
  have h2 : v = (pc.2 / abcDenom inv, abcLabel (pc.2 / abcDenom inv)) :=
    (congrArg Prod.snd heq).symm
  refine ⟨pc.2, ?_, ?_⟩
  · rw [hv, h2]
  · have : pc = (p, pc.2) := by
      rw [← h1]
    rw [← this]
    exact hpc

theorem product_mem_finProducts (inv : List CInvRow) (row : CInvRow) (p : Ident)
    (hrow : row ∈ inv) (hp : row.product_id = some p) : p ∈ finProducts inv := by
  unfold finProducts
  rw [mem_dedupKeys]
  exact List.mem_filterMap.mpr ⟨row, hrow, hp⟩

theorem cumPairs_all_zero (inv : List CInvRow) (l : List Ident) (acc : Rat)
    (h : ∀ p ∈ l, productValue inv p = 0) :
    ∀ pr ∈ cumPairs inv l acc, pr.2 = acc := by
  induction l generalizing acc with
  | nil => simp [cumPairs]
  | cons p rest ih =>
    intro pr hpr
    simp only [cumPairs, List.mem_cons] at hpr
    have hp0 : productValue inv p = 0 := h p (List.mem_cons_self _ _)
    rcases hpr with rfl | hpr
    · simp [hp0]
    · rw [hp0, add_zero] at hpr
      exact ih acc (fun q hq => h q (List.mem_cons_of_mem p hq)) pr hpr

deriving instance DecidableEq for Except

section

attribute [local semireducible] Rat.add Rat.mul Rat.sub Rat.inv

/-! ## Claim C1 -/

/-- The inventory of the repository's own test (`test_turnover_basic`)
and of the spec's worked example. -/
def invC1 : DF := ⟨["product_id", "quantity", "unit_cost"],
  [[("product_id", .num 1), ("quantity", .num 100), ("unit_cost", .num 10)],
   [("product_id", .num 2), ("quantity", .num 0), ("unit_cost", .num 5)]]⟩

/-- One outbound movement for product 1 (quantity 50, type "out"). -/
def movC1 : DF := ⟨["product_id", "quantity", "movement_type", "modified_date"],
  [[("product_id", .num 1), ("quantity", .num 50), ("movement_type", .str "out"),
    ("modified_date", .num 0)]]⟩

/-- C1: the claim says `InventoryMetrics.run` yields
`turnover_ratio = cogs_quantity / quantity` (0.5 here) without raising.
In fact, on the spec's own example input the run raises `KeyError`:
`df` already carries a `cogs_quantity` column when it is merged with
`cogs_df`, pandas suffixes the clash to `cogs_quantity_x` /
`cogs_quantity_y`, and the subsequent `df["cogs_quantity"].fillna(0)`
accesses a column that no longer exists.  The engine therefore raises
whenever at least one outbound movement is present. -/
theorem C1_inventory_metrics_raises_keyerror :
    inventoryMetricsDF "modified_date" 180 200 invC1 movC1
      = .error "KeyError: cogs_quantity" := by decide

/-! ## Claim C2 -/

/-- A one-product inventory whose total inventory value is 0. -/
def invC2 : List CInvRow := [⟨some 1, none, 0, 0⟩]

/-- C2 counterexample: with total inventory value 0 the denominator is
substituted with 1, but the cumulative shares are then all 0, and
`label(0) = "A"` — every product receives class A, not class C as the
claim states. -/
theorem C2_cex_all_zero_value_gives_class_A :
    totalValue invC2 = 0 ∧
    financialMetricsRun (1/5) invC2 ≠ [] ∧
    ((financialMetricsRun (1/5) invC2).all (fun r => r.abc_class = some "C")) = false ∧
    ((financialMetricsRun (1/5) invC2).all (fun r => r.abc_class = some "A")) = true := by
  refine ⟨by decide, by decide, by decide, by decide⟩

/-- C2 (amended): for every non-empty inventory record set in which
every product's summed inventory value is 0, the cumulative-share
denominator is substituted with 1, and every product then receives
class A (its cumulative share is 0 ≤ 0.80) — not class C. -/
theorem C2_amended_zero_total_class_A (rate : Rat) (inv : List CInvRow)
    (hne : inv ≠ [])
    (hz : ∀ p ∈ finProducts inv, productValue inv p = 0) :
    abcDenom inv = 1 ∧
    ∀ r ∈ financialMetricsRun rate inv, ∀ p, r.product_id = some p →
      r.abc_class = some "A" := by
  have htot : totalValue inv = 0 := by
    unfold totalValue
    apply List.sum_eq_zero
    intro x hx
    rcases List.mem_map.mp hx with ⟨p, hp, rfl⟩
    exact hz p hp
  have hden : abcDenom inv = 1 := by
    unfold abcDenom
    rw [htot]
    norm_num
  refine ⟨hden, ?_⟩
  intro r hr p hp
  have hie : inv.isEmpty = false := by
    cases inv with
    | nil => exact absurd rfl hne
    | cons a t => rfl
  unfold financialMetricsRun at hr
  rw [hie] at hr
  simp only [Bool.false_eq_true, if_false] at hr
  rcases List.mem_map.mp hr with ⟨row, hrow, rfl⟩
  simp only at hp
  simp only [hp]
  have hpf : p ∈ finProducts inv := product_mem_finProducts inv row p hrow hp
  obtain ⟨c, hlook, hcum⟩ := abcTable_lookup inv p hpf
  have hc0 : c = 0 := by
    have := cumPairs_all_zero inv (sortedProds inv) 0
      (fun q hq => hz q ((mem_sortedProds inv q).mp hq)) (p, c) hcum
    simpa using this
  unfold classOf
  rw [hlook, hc0, hden]
  norm_num [abcLabel]

/-- C2 witness: the amended theorem applied to the concrete all-zero
inventory `invC2`. -/
theorem C2_amended_witness :
    abcDenom invC2 = 1 ∧
    ∀ r ∈ financialMetricsRun (1/5) invC2, ∀ p, r.product_id = some p →
      r.abc_class = some "A" :=
  C2_amended_zero_total_class_A (1/5) invC2 (by decide) (by decide)

/-! ## Claim C3 -/

/-- A raw movement record set with all columns present, one row with a
non-null product id but a null (unparsable) timestamp. -/
def rawC3 : RawMovData := ⟨true, true, true, [⟨some 1, some 5, "out", none⟩]⟩

/-- C3 counterexample: the claim says rows whose incremental timestamp
is null after coercion are dropped during normalization.
`_clean_movements` only drops rows with a null `product_id`
(`df.dropna(subset=["product_id"])`); it never drops on the timestamp
column, so the null-timestamp row above is returned to the engines. -/
theorem C3_cex_null_timestamp_row_retained :
    (cleanMovements rawC3).rows ≠ [] ∧
    ((cleanMovements rawC3).rows.all (fun r => r.tstamp.isSome)) = false := by
  decide

/-- C3 (amended): when the raw movement set carries a product-id
column, every row of the normalized set has a non-null product id —
rows with a null product id are dropped — but rows with a null
incremental timestamp are NOT dropped: every raw row with a non-null
product id survives, its (possibly null) timestamp unchanged. -/
theorem C3_amended_only_null_product_dropped (d : RawMovData)
    (hp : d.hasProductCol = true) :
    (∀ r ∈ (cleanMovements d).rows, r.product_id.isSome) ∧
    (∀ r ∈ d.rows, r.product_id.isSome →
      ∃ r' ∈ (cleanMovements d).rows,
        r'.product_id = r.product_id ∧ r'.tstamp = r.tstamp) := by
  unfold cleanMovements
  cases hrows : d.rows with
  | nil =>
    simp [emptyMovData]
  | cons a t =>
    have hie : (a :: t).isEmpty = false := rfl
    rw [hie]
    simp only [Bool.false_eq_true, if_false, hp, if_true]
    constructor
    · intro r hr
      cases hq : d.hasQuantityCol with
      | true =>
        rw [hq] at hr
        simp only [if_true] at hr
        rcases List.mem_map.mp hr with ⟨r0, hr0, rfl⟩
        exact (List.mem_filter.mp hr0).2
      | false =>
        rw [hq] at hr
        simp only [Bool.false_eq_true, if_false] at hr
        exact (List.mem_filter.mp hr).2
    · intro r hr hsome
      have hmem : r ∈ (a :: t).filter (fun r => r.product_id.isSome) :=
        List.mem_filter.mpr ⟨hrows ▸ hr, hsome⟩
      cases hq : d.hasQuantityCol with
      | true =>
        refine ⟨{ r with quantity := some (r.quantity.getD 0) }, ?_, rfl, rfl⟩
        simp only [if_true]
        exact List.mem_map.mpr ⟨r, hmem, rfl⟩
      | false =>
        refine ⟨r, ?_, rfl, rfl⟩
        simp only [Bool.false_eq_true, if_false]
        exact hmem

/-- C3 witness: the amended theorem applied to the concrete record set
`rawC3` — every normalized row keeps a non-null product id. -/
theorem C3_amended_witness :
    ((cleanMovements rawC3).rows.all (fun r => r.product_id.isSome)) = true := by
  have h := (C3_amended_only_null_product_dropped rawC3 rfl).1
  exact List.all_eq_true.mpr (fun r hr => h r hr)

/-! ## Claim C4 -/

/-- A non-empty raw inventory record set missing the `quantity`
column. -/
def rawC4 : RawInvData := ⟨true, true, false, true, true,
  [⟨some 1, some 1, none, some 2, some 3⟩]⟩

/-- C4 counterexample: the claim says a missing required column is
synthesized in the returned record set with its default value.
`_clean_inventory` only logs the missing-column list; the returned
record set still lacks the `quantity` column. -/
theorem C4_cex_missing_column_not_synthesized :
    missingInventoryColumns rawC4 = ["quantity"] ∧
    (cleanInventory rawC4).rows ≠ [] ∧
    (cleanInventory rawC4).hasQuantityCol = false := by
  decide

/-- C4 (amended): for every non-empty raw inventory record set,
normalization does not fail and the absence of required columns is
logged (the missing-column warning list), but no missing column is
synthesized: the returned record set carries exactly the columns of
the input, and no row is added or dropped. -/
theorem C4_amended_missing_columns_logged_not_synthesized
    (d : RawInvData) (hne : d.rows ≠ []) :
    (cleanInventory d).hasProductCol = d.hasProductCol ∧
    (cleanInventory d).hasSiteCol = d.hasSiteCol ∧
    (cleanInventory d).hasQuantityCol = d.hasQuantityCol ∧
    (cleanInventory d).hasUpdatedCol = d.hasUpdatedCol ∧
    (cleanInventory d).hasCostCol = d.hasCostCol ∧
    (cleanInventory d).rows.length = d.rows.length := by
  have hie : d.rows.isEmpty = false := by
    cases hrows : d.rows with
    | nil => exact absurd hrows hne
    | cons a t => rfl
  unfold cleanInventory
  rw [hie]
  simp only [Bool.false_eq_true, if_false]
  cases d.hasQuantityCol <;> cases d.hasCostCol <;>
    simp [List.length_map]

/-- C4 witness: the amended theorem applied to the concrete record set
`rawC4`. -/
theorem C4_amended_witness :
    (cleanInventory rawC4).hasQuantityCol = rawC4.hasQuantityCol ∧
    (cleanInventory rawC4).rows.length = rawC4.rows.length :=
  ⟨(C4_amended_missing_columns_logged_not_synthesized rawC4 (by decide)).2.2.1,
   (C4_amended_missing_columns_logged_not_synthesized rawC4 (by decide)).2.2.2.2.2⟩

/-! ## Claim C5 -/

/-- Inventory for the C5 failing input: one product on hand. -/
def invC5 : List CInvRow := [⟨some 1, none, 10, 2⟩]

/-- Movements for the C5 failing input: one inbound movement of
product 1 at day 0 — no outbound movement, so the cogs `KeyError` path
(claim C1) is not taken and execution reaches the dead-stock step. -/
def movC5 : List CMovRow := [⟨some 1, 5, "in", some 0, none, none⟩]

/-- Column-faithful form of `invC5`. -/
def invC5df : DF := ⟨["product_id", "quantity", "unit_cost"],
  [[("product_id", .num 1), ("quantity", .num 10), ("unit_cost", .num 2)]]⟩

/-- Column-faithful form of `movC5`. -/
def movC5df : DF := ⟨["product_id", "quantity", "movement_type", "modified_date"],
  [[("product_id", .num 1), ("quantity", .num 5), ("movement_type", .str "in"),
    ("modified_date", .num 0)]]⟩

/-- C5: the claim describes the dead-stock policy of
`InventoryMetrics.run` (flag iff a known last-movement timestamp is
older than the threshold, never flag products without movement
history), but the code never completes that computation on any
non-empty movement set: at the dead-stock step it subtracts the
tz-naive `last_movement` column (this pipeline's timestamps are naive)
from the tz-aware `pd.Timestamp.utcnow()`, and pandas raises
`TypeError: Cannot subtract tz-naive and tz-aware datetime-like
objects`.  Both the structured and the column-faithful embeddings,
evaluated at the failing input (one inbound movement, so the earlier
cogs `KeyError` of claim C1 does not fire first), yield that error
instead of a dead-stock verdict. -/
theorem C5_dead_stock_typeerror :
    inventoryMetricsRun 180 200 invC5 movC5 = none ∧
    inventoryMetricsDF "modified_date" 180 200 invC5df movC5df
      = .error "TypeError: Cannot subtract tz-naive and tz-aware datetime-like objects" := by
  refine ⟨by decide, by decide⟩


/-! ## Claim C6 -/

/-- C6: every output row of `MovementAnalytics.run` carries the summed
quantity of the product's movements in the most-recent 30-day window
(`w1_qty`) and in the prior 30–60-day window (`w2_qty`), both measured
backward from the maximum observed timestamp of the data (not
wall-clock now — the run takes no clock argument at all), and
`trend_pct = (w1 - w2) / w2` when `w2 > 0` but null when `w2 = 0`. -/
theorem C6_windows_and_trend (mov : List CMovRow) (r : MovMetricRow)
    (hr : r ∈ movementAnalyticsRun mov) :
    r.w1_qty = w1Sum mov r.product_id ∧
    r.w2_qty = w2Sum mov r.product_id ∧
    (r.w2_qty > 0 → r.trend_pct = some ((r.w1_qty - r.w2_qty) / r.w2_qty)) ∧
    (r.w2_qty = 0 → r.trend_pct = none) := by
  unfold movementAnalyticsRun at hr
  cases hie : mov.isEmpty with
  | true =>
    rw [hie] at hr
    simp at hr
  | false =>
    rw [hie] at hr
    simp only [Bool.false_eq_true, if_false] at hr
    rcases List.mem_map.mp hr with ⟨p, hp, rfl⟩
    have hpdf : ∃ m ∈ movFiltered mov, m.product_id = some p := by
      have := (mem_dedupKeys _ p).mp hp
      rcases List.mem_filterMap.mp this with ⟨m, hm, hmp⟩
      exact ⟨m, hm, hmp⟩
    have hlat : ∃ L, latestTs mov = some L := by
      rcases hpdf with ⟨m, hm, _⟩
      have hts : m.tstamp.isSome := by
        rcases List.mem_filter.mp hm with ⟨_, hc⟩
        exact (of_decide_eq_true hc).1
      rcases Option.isSome_iff_exists.mp hts with ⟨t, ht⟩
      have hne : (movFiltered mov).filterMap (fun m => m.tstamp) ≠ [] := by
        intro hnil
        have : t ∈ (movFiltered mov).filterMap (fun m => m.tstamp) :=
          List.mem_filterMap.mpr ⟨m, hm, ht⟩
        rw [hnil] at this
        cases this
      exact Option.isSome_iff_exists.mp ((listMax_isSome _).mpr hne)
    rcases hlat with ⟨L, hL⟩
    have hgetD : (listMax ((movFiltered mov).filterMap (fun m => m.tstamp))).getD 0 = L := by
      unfold latestTs at hL
      rw [hL]
      rfl
    have hfilter1 : (movFiltered mov).filter
        (fun m => m.product_id = some p ∧ inWindow1 L m.tstamp) =
        mov.filter (fun m => m.product_id = some p ∧ inWindow1 L m.tstamp) := by
      apply filter_filter_of_imp
      intro m hm
      have hm' := of_decide_eq_true hm
      apply decide_eq_true
      refine ⟨?_, ?_⟩
      · cases hts : m.tstamp with
        | none => rw [hts] at hm'; exact absurd hm'.2 (by simp [inWindow1])
        | some t => simp
      · rw [hm'.1]
        simp
    have hfilter2 : (movFiltered mov).filter
        (fun m => m.product_id = some p ∧ inWindow2 L m.tstamp) =
        mov.filter (fun m => m.product_id = some p ∧ inWindow2 L m.tstamp) := by
      apply filter_filter_of_imp
      intro m hm
      have hm' := of_decide_eq_true hm
      apply decide_eq_true
      refine ⟨?_, ?_⟩
      · cases hts : m.tstamp with
        | none => rw [hts] at hm'; exact absurd hm'.2 (by simp [inWindow2])
        | some t => simp
      · rw [hm'.1]
        simp
    have hw1 : (((movFiltered mov).filter
          (fun m => m.product_id = some p ∧ inWindow1
            ((listMax ((movFiltered mov).filterMap (fun m => m.tstamp))).getD 0)
            m.tstamp)).map (fun m => m.quantity)).sum = w1Sum mov p := by
      rw [hgetD, hfilter1]
      unfold w1Sum
      rw [hL]
    have hw2 : (((movFiltered mov).filter
          (fun m => m.product_id = some p ∧ inWindow2
            ((listMax ((movFiltered mov).filterMap (fun m => m.tstamp))).getD 0)
            m.tstamp)).map (fun m => m.quantity)).sum = w2Sum mov p := by
      rw [hgetD, hfilter2]
      unfold w2Sum
      rw [hL]
    have htr : (movMetricOf mov p).trend_pct =
        if (movMetricOf mov p).w2_qty > 0 then
          some (((movMetricOf mov p).w1_qty - (movMetricOf mov p).w2_qty) /
            (movMetricOf mov p).w2_qty)
        else none := rfl
    refine ⟨hw1, hw2, ?_, ?_⟩
    · intro hpos
      rw [htr, if_pos hpos]
    · intro hzero
      rw [htr, if_neg (by simp [hzero])]

/-- Movements for the C6 witness: product 1 moves 5 units at day 10
(inside the recent window) and 3 units at day -25 (inside the prior
window, anchored at the data maximum 10). -/
def movC6 : List CMovRow :=
  [⟨some 1, 5, "in", some 10, none, none⟩,
   ⟨some 1, 3, "out", some (-25), none, none⟩]

/-- The output row of `MovementAnalytics.run` for product 1 on
`movC6`. -/
def rowC6 : MovMetricRow := movMetricOf movC6 1

/-- C6 witness: the theorem applied to `movC6` and its output row for
product 1 (`w1 = 5`, `w2 = 3`, `trend = 2/3`). -/
theorem C6_windows_and_trend_witness :
    rowC6.w1_qty = w1Sum movC6 rowC6.product_id ∧
    rowC6.w2_qty = w2Sum movC6 rowC6.product_id ∧
    (rowC6.w2_qty > 0 →
      rowC6.trend_pct = some ((rowC6.w1_qty - rowC6.w2_qty) / rowC6.w2_qty)) ∧
    (rowC6.w2_qty = 0 → rowC6.trend_pct = none) :=
  C6_windows_and_trend movC6 rowC6 (by decide)

/-! ## Claim C7 -/

/-- C7: `FinancialMetrics.run` keeps every inventory row and assigns
exactly one class in {A, B, C} to every product; products are ordered
by summed inventory value descending (the `Pairwise` conjunct), the
cumulative share is taken in that order, and the boundaries are
inclusive: class A iff share ≤ 0.80, class B iff 0.80 < share ≤ 0.95,
class C iff share > 0.95. -/
theorem C7_abc_classification (rate : Rat) (inv : List CInvRow) :
    (financialMetricsRun rate inv).length = inv.length ∧
    (sortedProds inv).Pairwise (fun a b => productValue inv b ≤ productValue inv a) ∧
    ∀ r ∈ financialMetricsRun rate inv, ∀ p, r.product_id = some p →
      ∃ c, r.abc_class = some c ∧
        (c = "A" ∨ c = "B" ∨ c = "C") ∧
        (c = "A" ↔ pctShare inv p ≤ 4/5) ∧
        (c = "B" ↔ 4/5 < pctShare inv p ∧ pctShare inv p ≤ 19/20) ∧
        (c = "C" ↔ 19/20 < pctShare inv p) := by
  have hlen : (financialMetricsRun rate inv).length = inv.length := by
    unfold financialMetricsRun
    cases hie : inv.isEmpty with
    | true => simp [List.isEmpty_iff.mp hie]
    | false => simp [hie]
  refine ⟨hlen, pairwise_sortedProds inv, ?_⟩
  intro r hr p hp
  unfold financialMetricsRun at hr
  cases hie : inv.isEmpty with
  | true =>
    rw [hie] at hr
    simp at hr
  | false =>
    rw [hie] at hr
    simp only [Bool.false_eq_true, if_false] at hr
    rcases List.mem_map.mp hr with ⟨row, hrow, rfl⟩
    simp only at hp
    simp only [hp]
    have hpf : p ∈ finProducts inv := product_mem_finProducts inv row p hrow hp
    obtain ⟨cv, hlook, _⟩ := abcTable_lookup inv p hpf
    have hpct : pctShare inv p = cv / abcDenom inv := by
      unfold pctShare
      rw [hlook]
    have hcls : classOf inv p = some (abcLabel (cv / abcDenom inv)) := by
      unfold classOf
      rw [hlook]
      rfl
    rw [hcls, hpct]
    refine ⟨abcLabel (cv / abcDenom inv), rfl, ?_, ?_, ?_, ?_⟩
    · unfold abcLabel
      by_cases h1 : cv / abcDenom inv ≤ 4/5
      · rw [if_pos h1]
        exact Or.inl rfl
      · by_cases h2 : cv / abcDenom inv ≤ 19/20
        · rw [if_neg h1, if_pos h2]
          exact Or.inr (Or.inl rfl)
        · rw [if_neg h1, if_neg h2]
          exact Or.inr (Or.inr rfl)
    · unfold abcLabel
      by_cases h1 : cv / abcDenom inv ≤ 4/5
      · rw [if_pos h1]
        exact iff_of_true rfl h1
      · by_cases h2 : cv / abcDenom inv ≤ 19/20
        · rw [if_neg h1, if_pos h2]
          exact iff_of_false (by decide) h1
        · rw [if_neg h1, if_neg h2]
          exact iff_of_false (by decide) h1
    · unfold abcLabel
      by_cases h1 : cv / abcDenom inv ≤ 4/5
      · rw [if_pos h1]
        exact iff_of_false (by decide) (fun hc => absurd h1 (not_le.mpr hc.1))
      · by_cases h2 : cv / abcDenom inv ≤ 19/20
        · rw [if_neg h1, if_pos h2]
          exact iff_of_true rfl ⟨lt_of_not_le h1, h2⟩
        · rw [if_neg h1, if_neg h2]
          exact iff_of_false (by decide) (fun hc => absurd hc.2 h2)
    · unfold abcLabel
      by_cases h1 : cv / abcDenom inv ≤ 4/5
      · rw [if_pos h1]
        exact iff_of_false (by decide)
          (fun hc => absurd (le_trans h1 (by norm_num)) (not_le.mpr hc))
      · by_cases h2 : cv / abcDenom inv ≤ 19/20
        · rw [if_neg h1, if_pos h2]
          exact iff_of_false (by decide) (fun hc => absurd h2 (not_le.mpr hc))
        · rw [if_neg h1, if_neg h2]
          exact iff_of_true rfl (lt_of_not_le h2)

/-- Inventory for the C7 witness: one product, value 1000, so its
cumulative share is 1 and its class is C. -/
def invC7 : List CInvRow := [⟨some 1, none, 100, 10⟩]

/-- The output row of `FinancialMetrics.run` for `invC7`. -/
def rowC7 : FinOutRow := ⟨some 1, 100, 10, 1000, 200, some "C"⟩

/-- C7 witness: the theorem's classification clause applied to the
concrete run on `invC7`. -/
theorem C7_abc_classification_witness :
    ∃ c, rowC7.abc_class = some c ∧
      (c = "A" ∨ c = "B" ∨ c = "C") ∧
      (c = "A" ↔ pctShare invC7 1 ≤ 4/5) ∧
      (c = "B" ↔ 4/5 < pctShare invC7 1 ∧ pctShare invC7 1 ≤ 19/20) ∧
      (c = "C" ↔ 19/20 < pctShare invC7 1) :=
  (C7_abc_classification (1/5) invC7).2.2 rowC7 (by decide) 1 (by decide)

/-! ## Claim C8 -/

/-- C8: the two sources have distinct cold-start policies.  With no
stored queryable watermark, `extract` filters the queryable table at
`now` minus the configured lookback (default 7 days); with no stored
flat-file watermark, no timestamp filter is applied and the whole file
is ingested. -/
theorem C8_cold_start_policies (lb : Option Rat) (now : Rat) (st0 : EtlState)
    (table : List RawInvRow) (fileData : RawMovData)
    (hpg : st0.postgres_last = none) (hcsv : st0.csv_last = none) :
    (extract true true lb (.ok table) (some (.ok fileData)) now st0).inventory
      = cleanInventory (invDataOf (queryIncremental table (now - lb.getD 7))) ∧
    (extract true true lb (.ok table) (some (.ok fileData)) now st0).movements
      = cleanMovements fileData := by
  unfold extract
  rw [hpg, hcsv]
  exact ⟨rfl, rfl⟩

/-- Queryable table for the C8 witness: one row inside the 7-day
lookback window (day 95 ≥ 93), one outside (day 10). -/
def tableC8 : List RawInvRow :=
  [⟨some 1, some 1, some 4, some 2, some 95⟩,
   ⟨some 2, some 1, some 6, some 2, some 10⟩]

/-- Flat file for the C8 witness. -/
def fileC8 : RawMovData :=
  ⟨true, true, true, [⟨some 1, some 5, "out", some 1⟩]⟩

/-- C8 witness: the theorem applied on a cold start (`⟨none, none⟩`
checkpoint) at day 100 with no configured lookback (default 7). -/
theorem C8_cold_start_policies_witness :
    (extract true true none (.ok tableC8) (some (.ok fileC8)) 100
        ⟨none, none⟩).inventory
      = cleanInventory (invDataOf (queryIncremental tableC8 (100 - (7:Rat)))) ∧
    (extract true true none (.ok tableC8) (some (.ok fileC8)) 100
        ⟨none, none⟩).movements
      = cleanMovements fileC8 :=
  C8_cold_start_policies none 100 ⟨none, none⟩ tableC8 fileC8 rfl rfl

/-! ## Claim C10 -/

/-- C10: whenever the queryable source is enabled, the checkpoint state
handed to `_save_state` carries `postgres_last = now` — also when the
queryable read failed (`.error`) and an empty inventory set was
returned: the watermark advance is unconditional on the read
succeeding. -/
theorem C10_watermark_advances_on_failed_read (csvEnabled : Bool)
    (lb : Option Rat) (pgTable : Except Unit (List RawInvRow))
    (csvFile : Option (Except Unit RawMovData)) (now : Rat) (st0 : EtlState) :
    (extract true csvEnabled lb pgTable csvFile now st0).savedState.postgres_last
      = some now ∧
    (pgTable = .error () →
      (extract true csvEnabled lb pgTable csvFile now st0).inventory
        = emptyInvData) := by
  constructor
  · unfold extract
    cases csvEnabled with
    | false => rfl
    | true =>
      cases csvFile with
      | none => rfl
      | some e => cases e <;> rfl
  · intro he
    subst he
    unfold extract
    cases csvEnabled with
    | false => rfl
    | true =>
      cases csvFile with
      | none => rfl
      | some e => cases e <;> rfl

/-- C10 witness: the theorem applied to a failing queryable read on a
checkpoint whose queryable watermark was day 5; the saved state still
advances it to day 100 and the inventory set is empty. -/
theorem C10_watermark_advances_witness :
    (extract true true none (.error ()) none 100 ⟨some 5, none⟩).savedState.postgres_last
      = some 100 ∧
    (extract true true none (.error ()) none 100 ⟨some 5, none⟩).inventory
      = emptyInvData :=
  ⟨(C10_watermark_advances_on_failed_read true none (.error ()) none 100
      ⟨some 5, none⟩).1,
   (C10_watermark_advances_on_failed_read true none (.error ()) none 100
      ⟨some 5, none⟩).2 rfl⟩

/-! ## Claim C9 -/

/-- Inventory with a site column: two sites. -/
def invC9 : DF := ⟨["site_id", "quantity", "product_id"],
  [[("site_id", .num 1), ("quantity", .num 10), ("product_id", .num 7)],
   [("site_id", .num 2), ("quantity", .num 5), ("product_id", .num 8)]]⟩

/-- Movements carrying both site fields: one transfer from site 1 to
site 2. -/
def movC9 : DF := ⟨["product_id", "quantity", "from_site", "to_site"],
  [[("product_id", .num 7), ("quantity", .num 3), ("from_site", .num 1),
    ("to_site", .num 2)]]⟩

/-- C9 counterexample: the claim says the output carries the columns
site_id, quantity, capacity, utilization, src, dst, transfer_quantity.
The source never renames the transfer table's `quantity` column, so the
left merge suffixes the clash: the output columns are `quantity_x` (per
site) and `quantity_y` (per transfer pair) — there is neither a
`quantity` nor a `transfer_quantity` column. -/
theorem C9_cex_output_columns :
    (warehousePerformanceDF 100000 invC9 movC9).map DF.cols
      = .ok ["site_id", "quantity_x", "capacity", "utilization",
             "src", "dst", "quantity_y"] ∧
    (warehousePerformanceDF 100000 invC9 movC9).map
        (fun df => df.cols.contains "transfer_quantity") = .ok false ∧
    (warehousePerformanceDF 100000 invC9 movC9).map
        (fun df => df.cols.contains "quantity") = .ok false := by
  refine ⟨by decide, by decide, by decide⟩

/-- C9 (amended): for every non-empty inventory record set with a site
column and every movement record set with at least one row carrying
both a non-null from-site and to-site, the engine left-joins the
per-(src, dst) summed transfer volume onto the per-site utilization
table: every site of the utilization table appears in the output, a
site with no matching transfer pair retains null transfer fields, and
the transfer fields are `src`, `dst` and the suffixed `quantity_y`
(there is no `transfer_quantity` column; the per-site quantity is
suffixed to `quantity_x`). -/
theorem C9_amended_left_join (cap : Rat) (inv : List CInvRow)
    (mov : List CMovRow) (hne : inv ≠ []) (hpairs : transferPairs mov ≠ []) :
    ∃ out, warehousePerformanceRun cap inv mov = .joined out ∧
      (∀ s ∈ whSites inv, ∃ r ∈ out, r.site_id = s ∧
        r.quantity_x = siteQty inv s ∧ r.capacity = cap ∧
        r.utilization = siteQty inv s / cap) ∧
      (∀ r ∈ out, r.site_id ∈ whSites inv) ∧
      (∀ r ∈ out, (∀ pr ∈ transferPairs mov, pr.1 ≠ r.site_id) →
        r.src = none ∧ r.dst = none ∧ r.quantity_y = none) ∧
      (∀ r ∈ out, ∀ a b, r.src = some a → r.dst = some b →
        a = r.site_id ∧ (a, b) ∈ transferPairs mov ∧
        r.quantity_y = some (transferQty mov a b)) := by
  have hie : inv.isEmpty = false := by
    cases hrows : inv with
    | nil => exact absurd hrows hne
    | cons a t => rfl
  have hpe : (transferPairs mov).isEmpty = false := by
    cases hpr : transferPairs mov with
    | nil => exact absurd hpr hpairs
    | cons a t => rfl
  refine ⟨((whSites inv).map (whUtilRow cap inv)).flatMap (whJoinRows mov),
    ?_, ?_, ?_, ?_, ?_⟩
  · unfold warehousePerformanceRun
    rw [hie, hpe]
    rfl
  · intro s hs
    have hu : whUtilRow cap inv s ∈ (whSites inv).map (whUtilRow cap inv) :=
      List.mem_map.mpr ⟨s, hs, rfl⟩
    by_cases hh : ((transferPairs mov).filter
        (fun pr => pr.1 = (whUtilRow cap inv s).1)).isEmpty
    · refine ⟨⟨s, siteQty inv s, cap, siteQty inv s / cap, none, none, none⟩,
        ?_, rfl, rfl, rfl, rfl⟩
      refine List.mem_flatMap.mpr ⟨whUtilRow cap inv s, hu, ?_⟩
      unfold whJoinRows
      rw [if_pos hh]
      exact List.mem_singleton.mpr rfl
    · have hnil : ((transferPairs mov).filter
          (fun pr => pr.1 = (whUtilRow cap inv s).1)) ≠ [] := by
        intro h0
        rw [h0] at hh
        exact hh rfl
      rcases List.exists_mem_of_ne_nil _ hnil with ⟨pr, hpr⟩
      refine ⟨⟨s, siteQty inv s, cap, siteQty inv s / cap, some pr.1, some pr.2,
          some (transferQty mov pr.1 pr.2)⟩, ?_, rfl, rfl, rfl, rfl⟩
      refine List.mem_flatMap.mpr ⟨whUtilRow cap inv s, hu, ?_⟩
      unfold whJoinRows
      rw [if_neg (by simpa using hh)]
      exact List.mem_map.mpr ⟨pr, hpr, rfl⟩
  · intro r hr
    rcases List.mem_flatMap.mp hr with ⟨u, hu, hru⟩
    rcases List.mem_map.mp hu with ⟨s, hs, rfl⟩
    unfold whJoinRows at hru
    by_cases hh : ((transferPairs mov).filter
        (fun pr => pr.1 = (whUtilRow cap inv s).1)).isEmpty
    · rw [if_pos hh] at hru
      rcases List.mem_singleton.mp hru with rfl
      exact hs
    · rw [if_neg hh] at hru
      rcases List.mem_map.mp hru with ⟨pr, _, rfl⟩
      exact hs
  · intro r hr hno
    rcases List.mem_flatMap.mp hr with ⟨u, hu, hru⟩
    rcases List.mem_map.mp hu with ⟨s, hs, rfl⟩
    unfold whJoinRows at hru
    by_cases hh : ((transferPairs mov).filter
        (fun pr => pr.1 = (whUtilRow cap inv s).1)).isEmpty
    · rw [if_pos hh] at hru
      rcases List.mem_singleton.mp hru with rfl
      exact ⟨rfl, rfl, rfl⟩
    · rw [if_neg hh] at hru
      rcases List.mem_map.mp hru with ⟨pr, hprm, rfl⟩
      rcases List.mem_filter.mp hprm with ⟨hprp, hpr1⟩
      exact absurd (of_decide_eq_true hpr1) (hno pr hprp)
  · intro r hr a b hsrc hdst
    rcases List.mem_flatMap.mp hr with ⟨u, hu, hru⟩
    rcases List.mem_map.mp hu with ⟨s, hs, rfl⟩
    unfold whJoinRows at hru
    by_cases hh : ((transferPairs mov).filter
        (fun pr => pr.1 = (whUtilRow cap inv s).1)).isEmpty
    · rw [if_pos hh] at hru
      rcases List.mem_singleton.mp hru with rfl
      cases hsrc
    · rw [if_neg hh] at hru
      rcases List.mem_map.mp hru with ⟨pr, hprm, rfl⟩
      rcases List.mem_filter.mp hprm with ⟨hprp, hpr1⟩
      obtain rfl : pr.1 = a := Option.some.inj hsrc
      obtain rfl : pr.2 = b := Option.some.inj hdst
      exact ⟨of_decide_eq_true hpr1, by simpa using hprp, rfl⟩

/-- Structured inventory for the C9 witness (two sites). -/
def invC9s : List CInvRow := [⟨some 7, some 1, 10, 1⟩, ⟨some 8, some 2, 5, 1⟩]

/-- Structured movements for the C9 witness: one transfer from site 1
to site 2. -/
def movC9s : List CMovRow := [⟨some 7, 3, "in", some 0, some 1, some 2⟩]

/-- C9 witness: the amended theorem applied to `invC9s` / `movC9s`. -/
theorem C9_amended_left_join_witness :
    ∃ out, warehousePerformanceRun 100000 invC9s movC9s = .joined out ∧
      (∀ s ∈ whSites invC9s, ∃ r ∈ out, r.site_id = s ∧
        r.quantity_x = siteQty invC9s s ∧ r.capacity = 100000 ∧
        r.utilization = siteQty invC9s s / 100000) ∧
      (∀ r ∈ out, r.site_id ∈ whSites invC9s) ∧
      (∀ r ∈ out, (∀ pr ∈ transferPairs movC9s, pr.1 ≠ r.site_id) →
        r.src = none ∧ r.dst = none ∧ r.quantity_y = none) ∧
      (∀ r ∈ out, ∀ a b, r.src = some a → r.dst = some b →
        a = r.site_id ∧ (a, b) ∈ transferPairs movC9s ∧
        r.quantity_y = some (transferQty movC9s a b)) :=
  C9_amended_left_join 100000 invC9s movC9s (by decide) (by decide)

end

end WarehouseETL
